import Mathlib

/-!
# Verification of `squat/servor`

A shallow embedding of the two variants of the servor position controller
and HTTP handler, with theorems about the claims of the specification.

Variant b (`src/main.go`): a float position in `[min, max]`, clamped inside
`servor.set` before every write to the pi-blaster command channel.
Go `float64` arithmetic is modelled over `ℚ`.  No theorem below asserts an
exact intermediate value of the accumulated position (where binary rounding
would make the model diverge from the program); the properties stated are
order comparisons, clamp outputs (which are exactly `min` or `max`, also in
`float64`), status codes, and the 6-decimal printed command lines, on which
exact rationals and the program's `float64` run agree.

Variant a (`src/unnamed/part_000`): a `uint32` step index with boundary
checks before incrementing, driving a duty-cycle call.  `uint32`
arithmetic is modelled as `Nat` with explicit `% 2^32` where Go wraps.
-/

namespace SQ

/-- The outcome of one driver I/O transaction in variant b:
`os.OpenFile` may fail, then `fmt.Fprintf` may fail, else success. -/
inductive DriverOutcome
  | ok
  | openFail
  | writeFail
deriving DecidableEq, Repr

/-! ## Variant b (`src/main.go`) -/

/-- The `servor` struct of `src/main.go` (variant b).  The mutex and
logger fields carry no claim-relevant state and are omitted. -/
structure Servor where
  pin : Int
  position : ℚ
  min : ℚ
  max : ℚ
  step : ℚ
deriving DecidableEq, Repr

/-- `newServor` of `src/main.go`: position starts at `0`,
`step = (max - min) / steps`. -/
def newServor (pin : Int) (mn mx : ℚ) (steps : ℕ) : Servor :=
  { pin := pin
    position := 0
    max := mx
    min := mn
    step := (mx - mn) / (steps : ℚ) }

/-- The two sequential conditionals at the top of `servor.set`:
`if position > max { position = max }; if position < min { position = min }`. -/
def goClamp (mn mx x : ℚ) : ℚ :=
  let x1 := if x > mx then mx else x
  if x1 < mn then mn else x1

/-- Go `fmt`'s `%f` (precision 6) on an exact rational: six digits after the
decimal point.  Rounding of the scaled value is modelled as round-half-up; every
value this development evaluates it on is an exact multiple of `10⁻⁶`, where no
rounding occurs at all. -/
def fmtFloat6 (q : ℚ) : String :=
  let sign := if q < 0 then "-" else ""
  let a : ℚ := |q|
  let scaled : ℕ := ⌊a * 1000000 + 1/2⌋.toNat
  let intPart := scaled / 1000000
  let fracPart := scaled % 1000000
  let digits := toString fracPart
  let pad := String.mk (List.replicate (6 - digits.length) '0')
  sign ++ toString intPart ++ "." ++ pad ++ digits

/-- The line `fmt.Fprintf(f, "%d=%f\n", s.pin, s.position)` writes to the
pi-blaster command channel. -/
def fmtLine (pin : Int) (q : ℚ) : String :=
  toString pin ++ "=" ++ fmtFloat6 q ++ "\n"

/-- Result of `servor.set`: the updated struct, whether the call returned
`nil`, and the `(position, line)` passed to `fmt.Fprintf` when the command
channel was opened (`none` when `os.OpenFile` failed). -/
structure SetResult where
  state : Servor
  ok : Bool
  applied : Option (ℚ × String)
deriving DecidableEq, Repr

/-- `servor.set` of `src/main.go`: clamp `position` into `[min, max]`
(the two conditionals, as `goClamp`), then open the command channel and
write `pin=position`; the clamp happens before any I/O, so the struct is
updated even when the I/O fails. -/
def set (s : Servor) (d : DriverOutcome) : SetResult :=
  let s1 := { s with position := goClamp s.min s.max s.position }
  match d with
  | .openFail => ⟨s1, false, none⟩
  | .writeFail => ⟨s1, false, some (s1.position, fmtLine s1.pin s1.position)⟩
  | .ok => ⟨s1, true, some (s1.position, fmtLine s1.pin s1.position)⟩

/-- An HTTP exchange against the variant-b handler: final struct, status
code written, whether the static page was served, and the `set` write. -/
structure HResp where
  state : Servor
  status : Nat
  page : Bool
  applied : Option (ℚ × String)
deriving DecidableEq, Repr

/-- `servor.ServeHTTP` of `src/main.go`.  `GET` serves the page on `/` and
`/index.html` and otherwise falls through to 404; `POST` adjusts the
position on `/api/left` / `/api/right` (and on any other path adjusts
nothing), then always calls `set`, answering 200 on success and 500 on a
driver error; any other method falls through to 404. -/
def serveHTTP (s : Servor) (d : DriverOutcome) (method path : String) : HResp :=
  if method = "GET" then
    if path = "/" ∨ path = "/index.html" then
      ⟨s, 200, true, none⟩
    else
      ⟨s, 404, false, none⟩
  else if method = "POST" then
    let s1 :=
      if path = "/api/left" then { s with position := s.position + s.step }
      else if path = "/api/right" then { s with position := s.position - s.step }
      else s
    let r := set s1 d
    ⟨r.state, if r.ok then 200 else 500, false, r.applied⟩
  else
    ⟨s, 404, false, none⟩

/-- A directional command, i.e. one of the two mutating routes. -/
inductive Req
  | left
  | right
deriving DecidableEq, Repr

/-- The route of a directional command. -/
def reqPath : Req → String
  | .left => "/api/left"
  | .right => "/api/right"

/-- Run a sequence of directional POSTs (each with its driver outcome)
through the variant-b handler, collecting every `(value, line)` actually
passed to the command-channel write. -/
def runB : Servor → List (Req × DriverOutcome) → Servor × List (ℚ × String)
  | s, [] => (s, [])
  | s, (r, d) :: rest =>
    let h := serveHTTP s d "POST" (reqPath r)
    let (sf, vs) := runB h.state rest
    (sf, h.applied.toList ++ vs)

/-- The state transition of one directional POST in variant b.  The
position update does not depend on the driver outcome: `set` clamps the
struct before attempting any I/O. -/
def stepB (s : Servor) (r : Req) : Servor :=
  (serveHTTP s .ok "POST" (reqPath r)).state

/-! ## Variant a (`src/unnamed/part_000`) -/

/-- `2^32`, the modulus of Go `uint32` arithmetic. -/
def U32 : ℕ := 4294967296

/-- `rpioMin` of `src/unnamed/part_000`. -/
def rpioMin : ℕ := 50000

/-- The `servor` struct of `src/unnamed/part_000` (variant a).  Fields are
`uint32` values, held as `Nat` (kept below `2^32` by the operations); the
embedded `rpio.Pin`, mutex and logger are omitted. -/
structure ServorA where
  pin : Int
  max : ℕ
  min : ℕ
  position : ℕ
  scale : ℕ
  steps : ℕ
deriving DecidableEq, Repr

/-- `newServor` of `src/unnamed/part_000`: `scale = rpioMin/frequency/steps`
(`uint32` division; Go panics when a divisor is 0 — callers here always pass
nonzero), floored to 1; `position` starts at `steps*min/100`.  The
`p.Pwm()`/`p.Freq(...)` hardware configuration calls carry no state used by
any claim and are omitted. -/
def newServorA (pin : Int) (frequency mx mn steps : ℕ) : ServorA :=
  let scale0 := rpioMin / frequency / steps
  let scale := if scale0 = 0 then 1 else scale0
  { pin := pin
    steps := steps
    max := mx
    min := mn
    position := steps * mn % U32 / 100
    scale := scale }

/-- `s.steps * s.max / 100` in `uint32` arithmetic: the upper step-index
bound compared against before incrementing. -/
def maxIdx (s : ServorA) : ℕ := s.steps * s.max % U32 / 100

/-- `s.steps * s.min / 100` in `uint32` arithmetic: the lower step-index
bound compared against before decrementing. -/
def minIdx (s : ServorA) : ℕ := s.steps * s.min % U32 / 100

/-- The position mutation of one directional POST in variant a:
`if s.position != bound { s.position±± }` with `uint32` wraparound.
In the Go source this is inlined in `ServeHTTP`. -/
def moveA (s : ServorA) : Req → ServorA
  | .left => if s.position ≠ maxIdx s then { s with position := (s.position + 1) % U32 } else s
  | .right => if s.position ≠ minIdx s then { s with position := (s.position + (U32 - 1)) % U32 } else s

/-- An HTTP exchange against the variant-a handler: final struct, the
status net/http sends, and the `(dutyLen, cycleLen)` arguments of the
`DutyCycle` call when one is made. -/
structure HRespA where
  state : ServorA
  status : Nat
  page : Bool
  duty : Option (ℕ × ℕ)
deriving DecidableEq, Repr

/-- `servor.ServeHTTP` of `src/unnamed/part_000`.  `GET` serves the page on
`/` and `/index.html`, otherwise 404; `POST /api/left` / `/api/right` move
the index (boundary-checked before the mutation), call
`DutyCycle(position*scale, steps*scale)` and answer 200; a `POST` to any
other path returns without writing a header, which net/http reports as an
implicit 200; any other method falls through to 404. -/
def serveHTTPa (s : ServorA) (method path : String) : HRespA :=
  if method = "GET" then
    if path = "/" ∨ path = "/index.html" then
      ⟨s, 200, true, none⟩
    else
      ⟨s, 404, false, none⟩
  else if method = "POST" then
    if path = "/api/left" then
      let s1 := moveA s .left
      ⟨s1, 200, false, some (s1.position * s1.scale % U32, s1.steps * s1.scale % U32)⟩
    else if path = "/api/right" then
      let s1 := moveA s .right
      ⟨s1, 200, false, some (s1.position * s1.scale % U32, s1.steps * s1.scale % U32)⟩
    else
      ⟨s, 200, false, none⟩
  else
    ⟨s, 404, false, none⟩

/-- Run a sequence of directional POSTs through the variant-a handler,
collecting the step index each `DutyCycle` call was computed from (the
call receives `index * scale`). -/
def runA : ServorA → List Req → ServorA × List ℕ
  | s, [] => (s, [])
  | s, r :: rest =>
    let h := serveHTTPa s "POST" (reqPath r)
    let (sf, vs) := runA h.state rest
    (sf, (h.duty.map fun _ => h.state.position).toList ++ vs)

/-! ## Helper lemmas -/

theorem goClamp_ge (mn mx x : ℚ) (h : mn ≤ mx) : mn ≤ goClamp mn mx x := by
  simp only [goClamp]
  split_ifs <;> linarith

theorem goClamp_le (mn mx x : ℚ) (h : mn ≤ mx) : goClamp mn mx x ≤ mx := by
  simp only [goClamp]
  split_ifs <;> linarith

theorem set_ok (s : Servor) :
    set s .ok =
      ⟨{ s with position := goClamp s.min s.max s.position }, true,
        some (goClamp s.min s.max s.position, fmtLine s.pin (goClamp s.min s.max s.position))⟩ := rfl

theorem set_openFail (s : Servor) :
    set s .openFail = ⟨{ s with position := goClamp s.min s.max s.position }, false, none⟩ := rfl

theorem set_writeFail (s : Servor) :
    set s .writeFail =
      ⟨{ s with position := goClamp s.min s.max s.position }, false,
        some (goClamp s.min s.max s.position, fmtLine s.pin (goClamp s.min s.max s.position))⟩ := rfl

theorem serveHTTP_get (s : Servor) (d : DriverOutcome) (p : String) :
    serveHTTP s d "GET" p =
      if p = "/" ∨ p = "/index.html" then ⟨s, 200, true, none⟩
      else ⟨s, 404, false, none⟩ := rfl

theorem serveHTTP_post (s : Servor) (d : DriverOutcome) (p : String) :
    serveHTTP s d "POST" p =
      (let s1 :=
        if p = "/api/left" then { s with position := s.position + s.step }
        else if p = "/api/right" then { s with position := s.position - s.step }
        else s
      let r := set s1 d
      ⟨r.state, if r.ok then 200 else 500, false, r.applied⟩) := rfl

theorem serveHTTP_other_method (s : Servor) (d : DriverOutcome) (m p : String)
    (h1 : m ≠ "GET") (h2 : m ≠ "POST") :
    serveHTTP s d m p = ⟨s, 404, false, none⟩ := by
  simp [serveHTTP, h1, h2]

theorem serveHTTP_left (s : Servor) (d : DriverOutcome) :
    serveHTTP s d "POST" "/api/left" =
      ⟨{ s with position := goClamp s.min s.max (s.position + s.step) },
        if d = .ok then 200 else 500, false,
        if d = .openFail then none
        else some (goClamp s.min s.max (s.position + s.step),
          fmtLine s.pin (goClamp s.min s.max (s.position + s.step)))⟩ := by
  cases d <;> rfl

theorem serveHTTP_right (s : Servor) (d : DriverOutcome) :
    serveHTTP s d "POST" "/api/right" =
      ⟨{ s with position := goClamp s.min s.max (s.position - s.step) },
        if d = .ok then 200 else 500, false,
        if d = .openFail then none
        else some (goClamp s.min s.max (s.position - s.step),
          fmtLine s.pin (goClamp s.min s.max (s.position - s.step)))⟩ := by
  cases d <;> rfl

theorem serveHTTP_post_other (s : Servor) (d : DriverOutcome) (p : String)
    (h1 : p ≠ "/api/left") (h2 : p ≠ "/api/right") :
    serveHTTP s d "POST" p =
      ⟨{ s with position := goClamp s.min s.max s.position },
        if d = .ok then 200 else 500, false,
        if d = .openFail then none
        else some (goClamp s.min s.max s.position,
          fmtLine s.pin (goClamp s.min s.max s.position))⟩ := by
  rw [serveHTTP_post]
  cases d <;> simp [h1, h2, set_ok, set_openFail, set_writeFail]

theorem fmtFloat6_eval (q : ℚ) (n : ℕ) (h0 : 0 ≤ q)
    (h : ⌊|q| * 1000000 + 1/2⌋ = (n : ℤ)) :
    fmtFloat6 q =
      toString (n / 1000000) ++ "." ++
        String.mk (List.replicate (6 - (toString (n % 1000000)).length) '0') ++
        toString (n % 1000000) := by
  simp only [fmtFloat6, h]
  rw [if_neg (not_lt.mpr h0)]
  simp

theorem fmtLine_p05 : fmtLine 18 (1/20) = "18=0.050000\n" := by
  rw [fmtLine, fmtFloat6_eval (1/20) 50000 (by norm_num)
    (by rw [abs_of_nonneg (by norm_num : (0:ℚ) ≤ 1/20), Int.floor_eq_iff]; norm_num)]
  decide

theorem fmtLine_half : fmtLine 18 (1/2) = "18=0.500000\n" := by
  rw [fmtLine, fmtFloat6_eval (1/2) 500000 (by norm_num)
    (by rw [abs_of_nonneg (by norm_num : (0:ℚ) ≤ 1/2), Int.floor_eq_iff]; norm_num)]
  decide

theorem fmtLine_p1 : fmtLine 18 1 = "18=1.000000\n" := by
  rw [fmtLine, fmtFloat6_eval 1 1000000 (by norm_num)
    (by rw [abs_of_nonneg (by norm_num : (0:ℚ) ≤ 1), Int.floor_eq_iff]; norm_num)]
  decide

theorem runB_nil (s : Servor) : runB s [] = (s, []) := rfl

theorem runB_cons (s : Servor) (r : Req) (d : DriverOutcome) (rest : List (Req × DriverOutcome)) :
    runB s ((r, d) :: rest) =
      ((runB (serveHTTP s d "POST" (reqPath r)).state rest).1,
        (serveHTTP s d "POST" (reqPath r)).applied.toList ++
          (runB (serveHTTP s d "POST" (reqPath r)).state rest).2) := rfl

theorem serveHTTPa_get (s : ServorA) (p : String) :
    serveHTTPa s "GET" p =
      if p = "/" ∨ p = "/index.html" then ⟨s, 200, true, none⟩
      else ⟨s, 404, false, none⟩ := rfl

theorem serveHTTPa_post (s : ServorA) (p : String) :
    serveHTTPa s "POST" p =
      if p = "/api/left" then
        ⟨moveA s .left, 200, false,
          some ((moveA s .left).position * (moveA s .left).scale % U32,
            (moveA s .left).steps * (moveA s .left).scale % U32)⟩
      else if p = "/api/right" then
        ⟨moveA s .right, 200, false,
          some ((moveA s .right).position * (moveA s .right).scale % U32,
            (moveA s .right).steps * (moveA s .right).scale % U32)⟩
      else ⟨s, 200, false, none⟩ := rfl

theorem serveHTTPa_other_method (s : ServorA) (m p : String)
    (h1 : m ≠ "GET") (h2 : m ≠ "POST") :
    serveHTTPa s m p = ⟨s, 404, false, none⟩ := by
  simp [serveHTTPa, h1, h2]

theorem moveA_scale (s : ServorA) (r : Req) : (moveA s r).scale = s.scale := by
  cases r <;> simp only [moveA] <;> split <;> rfl

theorem moveA_steps (s : ServorA) (r : Req) : (moveA s r).steps = s.steps := by
  cases r <;> simp only [moveA] <;> split <;> rfl

theorem moveA_min (s : ServorA) (r : Req) : (moveA s r).min = s.min := by
  cases r <;> simp only [moveA] <;> split <;> rfl

theorem moveA_max (s : ServorA) (r : Req) : (moveA s r).max = s.max := by
  cases r <;> simp only [moveA] <;> split <;> rfl

theorem serveHTTPa_left (s : ServorA) :
    serveHTTPa s "POST" "/api/left" =
      ⟨moveA s .left, 200, false,
        some ((moveA s .left).position * (moveA s .left).scale % U32,
          (moveA s .left).steps * (moveA s .left).scale % U32)⟩ := rfl

theorem serveHTTPa_right (s : ServorA) :
    serveHTTPa s "POST" "/api/right" =
      ⟨moveA s .right, 200, false,
        some ((moveA s .right).position * (moveA s .right).scale % U32,
          (moveA s .right).steps * (moveA s .right).scale % U32)⟩ := rfl

theorem postState_eq (s : Servor) (d : DriverOutcome) (r : Req) :
    (serveHTTP s d "POST" (reqPath r)).state =
      { s with position :=
                 goClamp s.min s.max
                   (if r = .left then s.position + s.step else s.position - s.step) } := by
  cases r <;> simp [reqPath, serveHTTP_left, serveHTTP_right]

theorem postApplied_eq (s : Servor) (d : DriverOutcome) (r : Req) :
    (serveHTTP s d "POST" (reqPath r)).applied =
      (if d = .openFail then none
       else some
        (goClamp s.min s.max (if r = .left then s.position + s.step else s.position - s.step),
         fmtLine s.pin
          (goClamp s.min s.max
            (if r = .left then s.position + s.step else s.position - s.step)))) := by
  cases r <;> simp [reqPath, serveHTTP_left, serveHTTP_right]

theorem runB_applied_mem (s : Servor) (l : List (Req × DriverOutcome)) (h : s.min ≤ s.max) :
    ∀ va ∈ (runB s l).2, s.min ≤ va.1 ∧ va.1 ≤ s.max := by
  induction l generalizing s with
  | nil => simp [runB_nil]
  | cons rd rest ih =>
    obtain ⟨r, d⟩ := rd
    intro va hva
    rw [runB_cons] at hva
    rcases List.mem_append.mp hva with hh | ht
    · rw [postApplied_eq] at hh
      by_cases hd : d = .openFail
      · rw [if_pos hd] at hh
        simp at hh
      · rw [if_neg hd] at hh
        simp at hh
        rw [hh]
        exact ⟨goClamp_ge _ _ _ h, goClamp_le _ _ _ h⟩
    · have hst := postState_eq s d r
      have hmin : (serveHTTP s d "POST" (reqPath r)).state.min = s.min := by rw [hst]
      have hmax : (serveHTTP s d "POST" (reqPath r)).state.max = s.max := by rw [hst]
      have := ih (serveHTTP s d "POST" (reqPath r)).state (by rw [hmin, hmax]; exact h) va ht
      rw [hmin, hmax] at this
      exact this

theorem maxIdx_lt (s : ServorA) : maxIdx s < U32 := by
  unfold maxIdx U32
  omega

theorem moveA_mem (s : ServorA) (r : Req)
    (h1 : minIdx s ≤ s.position) (h2 : s.position ≤ maxIdx s) :
    minIdx s ≤ (moveA s r).position ∧ (moveA s r).position ≤ maxIdx s := by
  have hm : maxIdx s < U32 := maxIdx_lt s
  cases r with
  | left =>
    simp only [moveA]
    split
    · rename_i hne
      have hlt : s.position < maxIdx s := lt_of_le_of_ne h2 hne
      constructor
      · show minIdx s ≤ (s.position + 1) % U32
        simp only [U32] at *
        omega
      · show (s.position + 1) % U32 ≤ maxIdx s
        simp only [U32] at *
        omega
    · exact ⟨h1, h2⟩
  | right =>
    simp only [moveA]
    split
    · rename_i hne
      have hgt : minIdx s < s.position := lt_of_le_of_ne h1 (Ne.symm hne)
      constructor
      · show minIdx s ≤ (s.position + (U32 - 1)) % U32
        simp only [U32] at *
        omega
      · show (s.position + (U32 - 1)) % U32 ≤ maxIdx s
        simp only [U32] at *
        omega
    · exact ⟨h1, h2⟩

theorem moveA_minIdx (s : ServorA) (r : Req) : minIdx (moveA s r) = minIdx s := by
  unfold minIdx
  rw [moveA_steps, moveA_min]

theorem moveA_maxIdx (s : ServorA) (r : Req) : maxIdx (moveA s r) = maxIdx s := by
  unfold maxIdx
  rw [moveA_steps, moveA_max]

theorem runA_nil (s : ServorA) : runA s [] = (s, []) := rfl

theorem runA_cons (s : ServorA) (r : Req) (rest : List Req) :
    runA s (r :: rest) =
      ((runA (moveA s r) rest).1, (moveA s r).position :: (runA (moveA s r) rest).2) := by
  cases r <;> rfl

theorem runA_idx_mem (s : ServorA) (l : List Req)
    (h1 : minIdx s ≤ s.position) (h2 : s.position ≤ maxIdx s) :
    ∀ v ∈ (runA s l).2, minIdx s ≤ v ∧ v ≤ maxIdx s := by
  induction l generalizing s with
  | nil => simp [runA_nil]
  | cons r rest ih =>
    intro v hv
    rw [runA_cons] at hv
    rcases List.mem_cons.mp hv with hh | ht
    · rw [hh]
      exact moveA_mem s r h1 h2
    · have hb := moveA_mem s r h1 h2
      have := ih (moveA s r) (by rw [moveA_minIdx]; exact hb.1) (by rw [moveA_maxIdx]; exact hb.2) v ht
      rw [moveA_minIdx, moveA_maxIdx] at this
      exact this

theorem postState_stepB (s : Servor) (d : DriverOutcome) (r : Req) :
    (serveHTTP s d "POST" (reqPath r)).state = stepB s r := by
  rw [postState_eq, stepB, postState_eq]

theorem stepB_left_fix (s : Servor) (h1 : s.min ≤ s.max) (h2 : 0 ≤ s.step)
    (h3 : s.position = s.max) : stepB s .left = s := by
  simp only [stepB, reqPath, serveHTTP_left]
  have hg : goClamp s.min s.max (s.position + s.step) = s.position := by
    rw [h3]
    simp only [goClamp]
    split_ifs <;> linarith
  rw [hg]

theorem stepB_right_fix (s : Servor) (h1 : s.min ≤ s.max) (h2 : 0 ≤ s.step)
    (h3 : s.position = s.min) : stepB s .right = s := by
  simp only [stepB, reqPath, serveHTTP_right]
  have hg : goClamp s.min s.max (s.position - s.step) = s.position := by
    rw [h3]
    simp only [goClamp]
    split_ifs <;> linarith
  rw [hg]

theorem moveA_left_fix (s : ServorA) (h : s.position = maxIdx s) : moveA s .left = s := by
  simp [moveA, h]

theorem moveA_right_fix (s : ServorA) (h : s.position = minIdx s) : moveA s .right = s := by
  simp [moveA, h]

theorem runB_left_fix (s : Servor) (h1 : s.min ≤ s.max) (h2 : 0 ≤ s.step)
    (h3 : s.position = s.max) :
    ∀ ds : List DriverOutcome, (runB s (ds.map fun d => (Req.left, d))).1 = s := by
  intro ds
  induction ds with
  | nil => rfl
  | cons d rest ih =>
    rw [List.map_cons, runB_cons, postState_stepB, stepB_left_fix s h1 h2 h3]
    exact ih

theorem runB_right_fix (s : Servor) (h1 : s.min ≤ s.max) (h2 : 0 ≤ s.step)
    (h3 : s.position = s.min) :
    ∀ ds : List DriverOutcome, (runB s (ds.map fun d => (Req.right, d))).1 = s := by
  intro ds
  induction ds with
  | nil => rfl
  | cons d rest ih =>
    rw [List.map_cons, runB_cons, postState_stepB, stepB_right_fix s h1 h2 h3]
    exact ih

theorem runA_left_fix (s : ServorA) (h : s.position = maxIdx s) :
    ∀ n : ℕ, (runA s (List.replicate n Req.left)).1 = s := by
  intro n
  induction n with
  | zero => rfl
  | succ n ih =>
    rw [List.replicate_succ, runA_cons, moveA_left_fix s h]
    exact ih

theorem runA_right_fix (s : ServorA) (h : s.position = minIdx s) :
    ∀ n : ℕ, (runA s (List.replicate n Req.right)).1 = s := by
  intro n
  induction n with
  | zero => rfl
  | succ n ih =>
    rw [List.replicate_succ, runA_cons, moveA_right_fix s h]
    exact ih

theorem post_bounds (s : Servor) (hs : s.min ≤ s.max) (d : DriverOutcome) (r : Req) :
    s.min ≤ (serveHTTP s d "POST" (reqPath r)).state.position
    ∧ (serveHTTP s d "POST" (reqPath r)).state.position ≤ s.max
    ∧ ∀ v l, (serveHTTP s d "POST" (reqPath r)).applied = some (v, l)
        → s.min ≤ v ∧ v ≤ s.max := by
  refine ⟨?_, ?_, ?_⟩
  · rw [postState_eq]
    exact goClamp_ge _ _ _ hs
  · rw [postState_eq]
    exact goClamp_le _ _ _ hs
  · intro v l hv
    rw [postApplied_eq] at hv
    by_cases hd : d = .openFail
    · rw [if_pos hd] at hv
      exact absurd hv (by simp)
    · rw [if_neg hd] at hv
      simp only [Option.some_inj, Prod.mk.injEq] at hv
      rw [← hv.1]
      exact ⟨goClamp_ge _ _ _ hs, goClamp_le _ _ _ hs⟩

theorem fmtLine_p0 : fmtLine 18 0 = "18=0.000000\n" := by
  rw [fmtLine, fmtFloat6_eval 0 0 (by norm_num)
    (by rw [abs_of_nonneg (by norm_num : (0:ℚ) ≤ 0), Int.floor_eq_iff]; norm_num)]
  decide

/-! ## Claims -/

/-- C3, counterexample: the claim says that after the first left nine more
lefts clamp the position at `1.0` (every further write being `18=1.000000`).
On the code, the tenth left from the initial state of `newServor(18, 0, 1, 20)`
leaves the position strictly below `1.0`, and its write is the line
`18=0.500000`, not `18=1.000000`: each step is `(1-0)/20`, which is `0.05`
up to one rounding unit, so ten steps sit near `0.5` — far from the bound.
(Both stated observations — the order bound and the 6-decimal printed line —
hold equally for the program's `float64` accumulation.) -/
theorem claim_C3_counterexample :
    (serveHTTP (runB (newServor 18 0 1 20) (List.replicate 9 (Req.left, DriverOutcome.ok))).1
      .ok "POST" "/api/left").state.position < 1
    ∧ (serveHTTP (runB (newServor 18 0 1 20) (List.replicate 9 (Req.left, DriverOutcome.ok))).1
        .ok "POST" "/api/left").applied.map Prod.snd = some "18=0.500000\n" := by
  constructor
  · norm_num [List.replicate, runB_cons, runB_nil, serveHTTP_left, goClamp, newServor, reqPath]
  · norm_num [List.replicate, runB_cons, runB_nil, serveHTTP_left, goClamp, newServor, reqPath,
      fmtLine_half]
    exact fun h => nomatch h

/-- C3, amended: in variant b with `min=0, max=1, steps=20, pin=18`, the
initial position is `0.0`; one `POST /api/left` writes the command line
`18=0.050000`; after nine more lefts the position has not yet reached `1.0`
and the tenth left's write is the line `18=0.500000`; only after twenty
lefts in total does the position clamp at `1.0`, and further lefts leave
the position unchanged but still write the line `18=1.000000`.  (Stated
through printed lines, order bounds and the clamped value `1.0` — the
observations on which exact rationals and the program's `float64`
accumulation agree; no exact intermediate position is asserted.) -/
theorem claim_C3 :
    (newServor 18 0 1 20).position = 0
    ∧ (serveHTTP (newServor 18 0 1 20) .ok "POST" "/api/left").applied.map Prod.snd
        = some "18=0.050000\n"
    ∧ (serveHTTP (runB (newServor 18 0 1 20) (List.replicate 9 (Req.left, DriverOutcome.ok))).1
        .ok "POST" "/api/left").state.position < 1
    ∧ (serveHTTP (runB (newServor 18 0 1 20) (List.replicate 9 (Req.left, DriverOutcome.ok))).1
        .ok "POST" "/api/left").applied.map Prod.snd = some "18=0.500000\n"
    ∧ (runB (newServor 18 0 1 20) (List.replicate 20 (Req.left, DriverOutcome.ok))).1.position
        = 1
    ∧ (serveHTTP (runB (newServor 18 0 1 20) (List.replicate 20 (Req.left, DriverOutcome.ok))).1
        .ok "POST" "/api/left").state.position = 1
    ∧ (serveHTTP (runB (newServor 18 0 1 20) (List.replicate 20 (Req.left, DriverOutcome.ok))).1
        .ok "POST" "/api/left").applied = some (1, "18=1.000000\n") := by
  refine ⟨rfl, ?_, ?_, ?_, ?_, ?_, ?_⟩
  · norm_num [serveHTTP_left, goClamp, newServor, fmtLine_p05]
    exact fun h => nomatch h
  · norm_num [List.replicate, runB_cons, runB_nil, serveHTTP_left, goClamp, newServor, reqPath]
  · norm_num [List.replicate, runB_cons, runB_nil, serveHTTP_left, goClamp, newServor, reqPath,
      fmtLine_half]
    exact fun h => nomatch h
  · norm_num [List.replicate, runB_cons, runB_nil, serveHTTP_left, goClamp, newServor, reqPath]
  · norm_num [List.replicate, runB_cons, runB_nil, serveHTTP_left, goClamp, newServor, reqPath]
  · norm_num [List.replicate, runB_cons, runB_nil, serveHTTP_left, goClamp, newServor, reqPath,
      fmtLine_p1]
    exact fun h => nomatch h

/-- C4, counterexample: the claim says every method/path pair other than
the three routes gets 404, including POSTs to unrecognized paths.  On the
code, `POST /foo` answers 200 in both variants (variant b still runs the
driver apply step; variant a returns without writing a header, which
net/http reports as 200). -/
theorem claim_C4_counterexample :
    (serveHTTP (newServor 18 0 1 20) .ok "POST" "/foo").status = 200
    ∧ (serveHTTP (newServor 18 0 1 20) .ok "POST" "/foo").status ≠ 404
    ∧ (serveHTTPa (newServorA 18 50 13 2 100) "POST" "/foo").status = 200
    ∧ (serveHTTPa (newServorA 18 50 13 2 100) "POST" "/foo").status ≠ 404 := by
  refine ⟨?_, ?_, ?_, ?_⟩ <;> decide

/-- C4, amended: every request whose method is neither GET nor POST gets
404, and every GET whose path is neither `/` nor `/index.html` gets 404,
in both variants; but a POST to an unrecognized path does not get 404:
variant b answers 200 on driver success and 500 on driver failure, and
variant a answers 200. -/
theorem claim_C4 :
    (∀ (s : Servor) (d : DriverOutcome) (m p : String), m ≠ "GET" → m ≠ "POST" →
      (serveHTTP s d m p).status = 404)
    ∧ (∀ (s : Servor) (d : DriverOutcome) (p : String), p ≠ "/" → p ≠ "/index.html" →
      (serveHTTP s d "GET" p).status = 404)
    ∧ (∀ (s : ServorA) (m p : String), m ≠ "GET" → m ≠ "POST" →
      (serveHTTPa s m p).status = 404)
    ∧ (∀ (s : ServorA) (p : String), p ≠ "/" → p ≠ "/index.html" →
      (serveHTTPa s "GET" p).status = 404)
    ∧ (∀ (s : Servor) (d : DriverOutcome) (p : String), p ≠ "/api/left" → p ≠ "/api/right" →
      (serveHTTP s d "POST" p).status = if d = .ok then 200 else 500)
    ∧ (∀ (s : ServorA) (p : String), p ≠ "/api/left" → p ≠ "/api/right" →
      (serveHTTPa s "POST" p).status = 200) := by
  refine ⟨?_, ?_, ?_, ?_, ?_, ?_⟩
  · intro s d m p h1 h2
    rw [serveHTTP_other_method s d m p h1 h2]
  · intro s d p h1 h2
    rw [serveHTTP_get]
    simp [h1, h2]
  · intro s m p h1 h2
    rw [serveHTTPa_other_method s m p h1 h2]
  · intro s p h1 h2
    rw [serveHTTPa_get]
    simp [h1, h2]
  · intro s d p h1 h2
    rw [serveHTTP_post_other s d p h1 h2]
  · intro s p h1 h2
    rw [serveHTTPa_post]
    simp [h1, h2]

/-- C4, witness: the amended claim at concrete requests. -/
theorem claim_C4_witness :
    (serveHTTP (newServor 18 0 1 20) .ok "PUT" "/api/left").status = 404
    ∧ (serveHTTP (newServor 18 0 1 20) .ok "GET" "/api/left").status = 404
    ∧ (serveHTTPa (newServorA 18 50 13 2 100) "PUT" "/").status = 404
    ∧ (serveHTTPa (newServorA 18 50 13 2 100) "GET" "/favicon.ico").status = 404
    ∧ (serveHTTP (newServor 18 0 1 20) .openFail "POST" "/foo").status = 500
    ∧ (serveHTTPa (newServorA 18 50 13 2 100) "POST" "/bar").status = 200 := by
  refine ⟨?_, ?_, ?_, ?_, ?_, ?_⟩
  · exact claim_C4.1 _ .ok "PUT" "/api/left" (by decide) (by decide)
  · exact claim_C4.2.1 _ .ok "/api/left" (by decide) (by decide)
  · exact claim_C4.2.2.1 _ "PUT" "/" (by decide) (by decide)
  · exact claim_C4.2.2.2.1 _ "/favicon.ico" (by decide) (by decide)
  · have h := claim_C4.2.2.2.2.1 (newServor 18 0 1 20) .openFail "/foo" (by decide) (by decide)
    simpa using h
  · exact claim_C4.2.2.2.2.2 _ "/bar" (by decide) (by decide)

/-- C1: for every sequence of moveLeft/moveRight operations, the position
value applied to the Pin Driver stays within bounds: in variant b every
float position passed to the command-channel write lies in `[min, max]`
(it is clamped before each write), and in variant a every step index
passed to the duty-cycle call lies in `[steps*min/100, steps*max/100]`,
for every number of repeated requests. -/
theorem claim_C1 :
    (∀ (s : Servor) (l : List (Req × DriverOutcome)), s.min ≤ s.max →
      ∀ va ∈ (runB s l).2, s.min ≤ va.1 ∧ va.1 ≤ s.max)
    ∧ (∀ (s : ServorA) (l : List Req),
      minIdx s ≤ s.position → s.position ≤ maxIdx s →
      ∀ v ∈ (runA s l).2, minIdx s ≤ v ∧ v ≤ maxIdx s) :=
  ⟨runB_applied_mem, runA_idx_mem⟩

/-- C1, witness: the bound property at the default configurations of the
two variants, on a concrete request sequence. -/
theorem claim_C1_witness :
    (∀ va ∈ (runB (newServor 18 0 1 20)
        [(Req.left, DriverOutcome.ok), (Req.right, DriverOutcome.openFail),
         (Req.right, DriverOutcome.ok)]).2,
      (newServor 18 0 1 20).min ≤ va.1 ∧ va.1 ≤ (newServor 18 0 1 20).max)
    ∧ (∀ v ∈ (runA (newServorA 18 50 13 2 100) [Req.left, Req.right, Req.right]).2,
      minIdx (newServorA 18 50 13 2 100) ≤ v ∧ v ≤ maxIdx (newServorA 18 50 13 2 100)) := by
  constructor
  · exact claim_C1.1 (newServor 18 0 1 20) _ (by norm_num [newServor])
  · exact claim_C1.2 (newServorA 18 50 13 2 100) _ (by decide) (by decide)

/-- C2: boundary idempotence.  In variant b, once the position equals
`max`, any number of further lefts leaves it at `max` (the value is
clamped after each mutation), and symmetrically at `min` for rights; in
variant a, at the upper index bound the guard fails and the index is not
incremented, and symmetrically at the lower bound. -/
theorem claim_C2 :
    (∀ (s : Servor) (ds : List DriverOutcome), s.min ≤ s.max → 0 ≤ s.step →
      s.position = s.max →
      (runB s (ds.map fun d => (Req.left, d))).1.position = s.max)
    ∧ (∀ (s : Servor) (ds : List DriverOutcome), s.min ≤ s.max → 0 ≤ s.step →
      s.position = s.min →
      (runB s (ds.map fun d => (Req.right, d))).1.position = s.min)
    ∧ (∀ (s : ServorA) (n : ℕ), s.position = maxIdx s →
      (runA s (List.replicate n Req.left)).1.position = maxIdx s)
    ∧ (∀ (s : ServorA) (n : ℕ), s.position = minIdx s →
      (runA s (List.replicate n Req.right)).1.position = minIdx s) := by
  refine ⟨?_, ?_, ?_, ?_⟩
  · intro s ds h1 h2 h3
    rw [runB_left_fix s h1 h2 h3 ds]
    exact h3
  · intro s ds h1 h2 h3
    rw [runB_right_fix s h1 h2 h3 ds]
    exact h3
  · intro s n h
    rw [runA_left_fix s h n]
    exact h
  · intro s n h
    rw [runA_right_fix s h n]
    exact h

/-- C2, witness: boundary idempotence at concrete states of the default
configurations (variant b at `max = 1`, variant a at its two index
bounds), over five repeated requests. -/
theorem claim_C2_witness :
    (runB ⟨18, 1, 0, 1, 1/20⟩
      ([DriverOutcome.ok, .openFail, .writeFail, .ok, .ok].map
        fun d => (Req.left, d))).1.position = (1 : ℚ)
    ∧ (runB ⟨18, 0, 0, 1, 1/20⟩
      ([DriverOutcome.ok, .openFail, .writeFail, .ok, .ok].map
        fun d => (Req.right, d))).1.position = (0 : ℚ)
    ∧ (runA ⟨18, 13, 2, 13, 10, 100⟩ (List.replicate 5 Req.left)).1.position
        = maxIdx ⟨18, 13, 2, 13, 10, 100⟩
    ∧ (runA ⟨18, 13, 2, 2, 10, 100⟩ (List.replicate 5 Req.right)).1.position
        = minIdx ⟨18, 13, 2, 2, 10, 100⟩ := by
  refine ⟨?_, ?_, ?_, ?_⟩
  · exact claim_C2.1 ⟨18, 1, 0, 1, 1/20⟩ _ (by norm_num) (by norm_num) rfl
  · exact claim_C2.2.1 ⟨18, 0, 0, 1, 1/20⟩ _ (by norm_num) (by norm_num) rfl
  · exact claim_C2.2.2.1 ⟨18, 13, 2, 13, 10, 100⟩ 5 (by decide)
  · exact claim_C2.2.2.2 ⟨18, 13, 2, 2, 10, 100⟩ 5 (by decide)

/-- C5: for every POST to `/api/left` or `/api/right`, the status is 200
exactly when the driver apply step succeeds and 500 exactly when it fails
(variant b); the handler is a total function, so a subsequent request
after any outcome — also a failure — is served normally; in variant a the
duty-cycle call cannot fail and the status is always 200. -/
theorem claim_C5 :
    (∀ (s : Servor) (d : DriverOutcome) (r : Req),
      ((serveHTTP s d "POST" (reqPath r)).status = 200 ↔ d = .ok)
      ∧ ((serveHTTP s d "POST" (reqPath r)).status = 500 ↔ d ≠ .ok))
    ∧ (∀ (s : Servor) (d d2 : DriverOutcome) (r r2 : Req),
      ((serveHTTP (serveHTTP s d "POST" (reqPath r)).state d2 "POST" (reqPath r2)).status = 200
        ↔ d2 = .ok))
    ∧ (∀ (s : ServorA) (r : Req), (serveHTTPa s "POST" (reqPath r)).status = 200) := by
  refine ⟨?_, ?_, ?_⟩
  · intro s d r
    cases r <;> cases d <;> simp [reqPath, serveHTTP_left, serveHTTP_right]
  · intro s d d2 r r2
    cases r2 <;> cases d2 <;> simp [reqPath, serveHTTP_left, serveHTTP_right]
  · intro s r
    cases r <;> simp [reqPath, serveHTTPa_left, serveHTTPa_right]

/-- C6: non-atomicity on driver failure in variant b.  For every starting
state, a moveLeft/moveRight whose driver apply step fails (open failure or
write failure) answers 500, yet leaves the in-memory position equal to the
clamped post-step value — the mutation is not rolled back. -/
theorem claim_C6 :
    ∀ s : Servor,
      ((serveHTTP s .openFail "POST" "/api/left").state.position
          = goClamp s.min s.max (s.position + s.step)
        ∧ (serveHTTP s .openFail "POST" "/api/left").status = 500)
      ∧ ((serveHTTP s .writeFail "POST" "/api/left").state.position
          = goClamp s.min s.max (s.position + s.step)
        ∧ (serveHTTP s .writeFail "POST" "/api/left").status = 500)
      ∧ ((serveHTTP s .openFail "POST" "/api/right").state.position
          = goClamp s.min s.max (s.position - s.step)
        ∧ (serveHTTP s .openFail "POST" "/api/right").status = 500)
      ∧ ((serveHTTP s .writeFail "POST" "/api/right").state.position
          = goClamp s.min s.max (s.position - s.step)
        ∧ (serveHTTP s .writeFail "POST" "/api/right").status = 500) := by
  intro s
  refine ⟨⟨?_, ?_⟩, ⟨?_, ?_⟩, ⟨?_, ?_⟩, ⟨?_, ?_⟩⟩ <;>
    simp [serveHTTP_left, serveHTTP_right]

/-- C7: a GET to any path other than `/` and `/index.html` (such as
`GET /api/left`, the wrong method for that route) answers 404 — not 405 —
and performs no state mutation and no driver write, in both variants. -/
theorem claim_C7 :
    (∀ (s : Servor) (d : DriverOutcome) (p : String), p ≠ "/" → p ≠ "/index.html" →
      serveHTTP s d "GET" p = ⟨s, 404, false, none⟩)
    ∧ (∀ (s : ServorA) (p : String), p ≠ "/" → p ≠ "/index.html" →
      serveHTTPa s "GET" p = ⟨s, 404, false, none⟩) := by
  constructor
  · intro s d p h1 h2
    rw [serveHTTP_get]
    simp [h1, h2]
  · intro s p h1 h2
    rw [serveHTTPa_get]
    simp [h1, h2]

/-- C7, witness: `GET /api/left` at the default configurations of the two
variants: status 404, state unchanged, no driver write. -/
theorem claim_C7_witness :
    serveHTTP (newServor 18 0 1 20) .ok "GET" "/api/left"
      = ⟨newServor 18 0 1 20, 404, false, none⟩
    ∧ serveHTTPa (newServorA 18 50 13 2 100) "GET" "/api/left"
      = ⟨newServorA 18 50 13 2 100, 404, false, none⟩ :=
  ⟨claim_C7.1 (newServor 18 0 1 20) .ok "/api/left" (by decide) (by decide),
   claim_C7.2 (newServorA 18 50 13 2 100) "/api/left" (by decide) (by decide)⟩

/-- C8: in variant b, a POST to any path other than `/api/left` and
`/api/right` performs no directional step but still runs the driver apply
step: the position is clamped into `[min, max]`, the line `pin=position`
is passed to the command-channel write (whenever the channel opens), and
the status is 200 on success and 500 on failure — never 404. -/
theorem claim_C8 :
    ∀ (s : Servor) (d : DriverOutcome) (p : String), p ≠ "/api/left" → p ≠ "/api/right" →
      (serveHTTP s d "POST" p).state.position = goClamp s.min s.max s.position
      ∧ (serveHTTP s d "POST" p).status = (if d = .ok then 200 else 500)
      ∧ (serveHTTP s d "POST" p).status ≠ 404
      ∧ (serveHTTP s d "POST" p).applied =
          (if d = .openFail then none
           else some (goClamp s.min s.max s.position,
             fmtLine s.pin (goClamp s.min s.max s.position))) := by
  intro s d p h1 h2
  rw [serveHTTP_post_other s d p h1 h2]
  cases d <;> simp

/-- C8, witness: `POST /foo` with a successful driver at the variant-b
default configuration: clamped position 0, status 200 (not 404), write of
`18=0.000000`. -/
theorem claim_C8_witness :
    (serveHTTP (newServor 18 0 1 20) .ok "POST" "/foo").state.position = 0
    ∧ (serveHTTP (newServor 18 0 1 20) .ok "POST" "/foo").status = 200
    ∧ (serveHTTP (newServor 18 0 1 20) .ok "POST" "/foo").status ≠ 404
    ∧ (serveHTTP (newServor 18 0 1 20) .ok "POST" "/foo").applied
        = some (0, "18=0.000000\n") := by
  have h := claim_C8 (newServor 18 0 1 20) .ok "/foo" (by decide) (by decide)
  have hg : goClamp (newServor 18 0 1 20).min (newServor 18 0 1 20).max
      (newServor 18 0 1 20).position = 0 := by
    norm_num [newServor, goClamp]
  rw [hg] at h
  refine ⟨h.1, by rw [h.2.1]; rfl, h.2.2.1, ?_⟩
  rw [h.2.2.2]
  simp [newServor, fmtLine_p0]

/-- C9: in variant b the constructed controller's position is `0`
regardless of the configured `min`; whenever `min > 0` the stored position
lies below `min` — outside `[min, max]` — and stays there across GET
requests; the first directional POST clamps it into `[min, max]`, and the
value passed to the driver write lies in `[min, max]`. -/
theorem claim_C9 :
    ∀ (pin : Int) (mn mx : ℚ) (steps : ℕ),
      (newServor pin mn mx steps).position = 0
      ∧ (0 < mn → (newServor pin mn mx steps).position < mn)
      ∧ (∀ (d : DriverOutcome) (p : String),
          (serveHTTP (newServor pin mn mx steps) d "GET" p).state = newServor pin mn mx steps)
      ∧ (mn ≤ mx → ∀ (d : DriverOutcome) (r : Req),
          mn ≤ (serveHTTP (newServor pin mn mx steps) d "POST" (reqPath r)).state.position
          ∧ (serveHTTP (newServor pin mn mx steps) d "POST" (reqPath r)).state.position ≤ mx
          ∧ ∀ v l,
              (serveHTTP (newServor pin mn mx steps) d "POST" (reqPath r)).applied = some (v, l)
              → mn ≤ v ∧ v ≤ mx) := by
  intro pin mn mx steps
  refine ⟨rfl, ?_, ?_, ?_⟩
  · intro h
    simpa [newServor] using h
  · intro d p
    rw [serveHTTP_get]
    split <;> rfl
  · intro h d r
    exact post_bounds (newServor pin mn mx steps) h d r

/-- C9, witness: with `min = 1/4 > 0`, `max = 1`, the initial position `0`
is below `min`; a first left with a working driver yields an in-range
position. -/
theorem claim_C9_witness :
    (newServor 18 (1/4) 1 20).position = 0
    ∧ (newServor 18 (1/4) 1 20).position < 1/4
    ∧ (1/4 : ℚ) ≤ (serveHTTP (newServor 18 (1/4) 1 20) .ok "POST" "/api/left").state.position := by
  have h := claim_C9 18 (1/4) 1 20
  refine ⟨h.1, h.2.1 (by norm_num), ?_⟩
  have h3 := (h.2.2.2 (by norm_num) .ok .left).1
  simpa [reqPath] using h3

/-- C10: in variant a, every POST to `/api/left` or `/api/right` answers
200 — the duty-cycle apply step has no error return, so no 500 branch
exists — and the `DutyCycle(position*scale, steps*scale)` write is issued
on every such request, including at the boundary where the index does not
change. -/
theorem claim_C10 :
    ∀ s : ServorA,
      (serveHTTPa s "POST" "/api/left").status = 200
      ∧ (serveHTTPa s "POST" "/api/left").duty
          = some ((moveA s .left).position * s.scale % U32, s.steps * s.scale % U32)
      ∧ (serveHTTPa s "POST" "/api/right").status = 200
      ∧ (serveHTTPa s "POST" "/api/right").duty
          = some ((moveA s .right).position * s.scale % U32, s.steps * s.scale % U32) := by
  intro s
  refine ⟨?_, ?_, ?_, ?_⟩ <;>
    simp [serveHTTPa_left, serveHTTPa_right, moveA_scale, moveA_steps]

end SQ
